import Mathlib

/-!
Verification of the CSS selector engine in
`tns-core-modules/ui/styling/css-selector.ts`.

The TypeScript source is shallowly embedded below: each selector class
becomes a constructor of an inductive type, prototype methods become
functions over those types, and the mutable `SelectorsMap` object becomes
explicit state passing.  JavaScript string-keyed objects are modelled as
association lists, JavaScript `Set<string>` as `List String`, and the
possibility of a thrown exception during `Selector.match` as an
`Except String Bool` result.
-/

namespace CssSel

/-- The node capability interface consumed by the engine:
`{ id, cssType, cssClasses?, cssPseudoClasses?, parent?, ...attributes }`.
`cssClasses` and `cssPseudoClasses` are optional capabilities (may be
`undefined` in JS, hence `Option`), `parent` is an optional link, and the
dynamic property bag used by attribute selectors (`node[attribute]`) is an
association list. -/
inductive Node where
  | mk (id : String) (cssType : String)
      (cssClasses : Option (List String))
      (cssPseudoClasses : Option (List String))
      (attrs : List (String × String))
      (parent : Option Node)

def Node.id : Node → String
  | .mk i _ _ _ _ _ => i

def Node.cssType : Node → String
  | .mk _ t _ _ _ _ => t

def Node.cssClasses : Node → Option (List String)
  | .mk _ _ c _ _ _ => c

def Node.cssPseudoClasses : Node → Option (List String)
  | .mk _ _ _ p _ _ => p

def Node.attrs : Node → List (String × String)
  | .mk _ _ _ _ a _ => a

def Node.parent : Node → Option Node
  | .mk _ _ _ _ _ p => p

/-- Combinators between selector sequences.  In the source the combinator
field holds `undefined` (none), `">"` (child), `" "` (descendant), or the
unsupported sibling combinators `"+"` / `"~"`. -/
inductive Combinator where
  | none
  | child
  | descendant
  | adjacent
  | sibling
deriving DecidableEq

/-- Text of a combinator as interpolated into the
`Unsupported combinator '${sel.combinator}'` error message. -/
def Combinator.text : Combinator → String
  | .none => "undefined"
  | .child => ">"
  | .descendant => " "
  | .adjacent => "+"
  | .sibling => "~"

/-- Simple selectors: the subclasses of `SimpleSelector` in the source
(`InvalidSelector`, `UniversalSelector`, `IdSelector`, `TypeSelector`,
`ClassSelector`, `PseudoClassSelector`, `AttributeSelector`).
An attribute selector carries the attribute name and, optionally, a test
operator string (`"="`, `"^="`, `"$="`, `"*="`, `"~="`, `"|="`) together
with the tested value. -/
inductive SimpleSel where
  | invalid (e : String)
  | universal
  | id (ident : String)
  | typeSel (cssType : String)
  | cls (cssClass : String)
  | pseudo (cssPseudoClass : String)
  | attr (attrName : String) (testVal : Option (String × String))
deriving DecidableEq

/-- Specificity constants from the `Specificity` enum, as injected into each
class by the `SelProps` decorator. -/
def SimpleSel.specificity : SimpleSel → Nat
  | .invalid _ => 0x00000000
  | .universal => 0x00000000
  | .id _ => 0x00010000
  | .typeSel _ => 0x00000001
  | .cls _ => 0x00000100
  | .pseudo _ => 0x00000100
  | .attr _ _ => 0x00000100

/-- Rarity constants from the `Rarity` enum as injected by `SelProps`.
Note: `AttributeSelector` overrides the `rarity` getter to return
`Specificity.Attribute` (0x100), not `Rarity.Attribute` (0) — embedded
exactly as the source has it. -/
def SimpleSel.rarity : SimpleSel → Nat
  | .invalid _ => 4
  | .universal => 0
  | .id _ => 3
  | .typeSel _ => 1
  | .cls _ => 2
  | .pseudo _ => 0
  | .attr _ _ => 0x00000100

/-- Does the char-list `v` occur as a contiguous run inside `s`?  Used to
embed the `"*="` (SubstringMatch) regular expression `new RegExp(escapedValue)`:
since the value is literal-escaped, the regex test is exactly a substring
test. -/
def subOccurs (v : List Char) : List Char → Bool
  | [] => v.isEmpty
  | c :: cs => v.isPrefixOf (c :: cs) || subOccurs v cs

/-- `node[attribute] + ""`: JavaScript string coercion of the attribute
value; an absent property coerces to the string `"undefined"`. -/
def attrString (node : Node) (attrName : String) : String :=
  match node.attrs.lookup attrName with
  | some v => v
  | Option.none => "undefined"

/-- The `AttributeSelector` test dispatch.  Each case embeds the literal
regular expression built in the constructor (`escapeRegexSymbols` makes the
value literal, so each regex denotes a plain string predicate); the fallthrough
(`regexp` left `null`) yields a constant-false match, as in the source. -/
def attrTestMatch (test value s : String) : Bool :=
  if test = "^=" then s.startsWith value
  else if test = "$=" then s.endsWith value
  else if test = "*=" then subOccurs value.data s.data
  else if test = "=" then s == value
  else if test = "~=" then
    if value.data.any (fun c => c.isWhitespace) then false
    else (s.split (fun c => c.isWhitespace)).contains value
  else if test = "|=" then s == value || s.startsWith (value ++ "-")
  else false

/-- `SimpleSelector#match(node)` for each subclass:
`InvalidSelector` matches nothing; `UniversalSelector` everything;
`IdSelector` compares `node.id`; `TypeSelector` compares `node.cssType`;
`ClassSelector` and `PseudoClassSelector` guard on the optional capability
(`node.cssClasses && node.cssClasses.has(...)`) so an absent set yields a
falsy result; `AttributeSelector` without a test checks presence
(`!isNullOrUndefined(node[attribute])`), with a test it runs the compiled
regex against `node[attribute] + ""`. -/
def SimpleSel.matches (s : SimpleSel) (node : Node) : Bool :=
  match s with
  | .invalid _ => false
  | .universal => true
  | .id i => node.id == i
  | .typeSel t => node.cssType == t
  | .cls c =>
    match node.cssClasses with
    | some cs => cs.contains c
    | Option.none => false
  | .pseudo p =>
    match node.cssPseudoClasses with
    | some ps => ps.contains p
    | Option.none => false
  | .attr a Option.none => (node.attrs.lookup a).isSome
  | .attr a (some (t, v)) => attrTestMatch t v (attrString node a)

/-- A member of a `Selector` chain: either a bare `SimpleSelector` or a
`SimpleSelectorSequence`, each carrying its `combinator` field. -/
inductive SeqSel where
  | simple (s : SimpleSel) (comb : Combinator)
  | seq (selectors : List SimpleSel) (comb : Combinator)
deriving DecidableEq

def SeqSel.comb : SeqSel → Combinator
  | .simple _ c => c
  | .seq _ c => c

/-- `SimpleSelectorSequence#specificity`:
`selectors.reduce((sum, sel) => sel.specificity + sum, 0)`. -/
def SeqSel.specificity : SeqSel → Nat
  | .simple s _ => s.specificity
  | .seq ss _ => ss.foldl (fun sum s => s.specificity + sum) 0

/-- Matching for a chain member: a bare simple selector tests itself;
a `SimpleSelectorSequence` requires `selectors.every(sel => sel.match(node))`. -/
def SeqSel.matches : SeqSel → Node → Bool
  | .simple s _, node => s.matches node
  | .seq ss _, node => ss.all (fun s => s.matches node)

/-- `SimpleSelectorSequence#head`: the member with the highest rarity,
computed by `reduce((prev, curr) => !prev || curr.rarity > prev.rarity ? curr : prev, null)`. -/
def sequenceHead (ss : List SimpleSel) : Option SimpleSel :=
  ss.foldl
    (fun prev curr =>
      match prev with
      | Option.none => some curr
      | some p => if curr.rarity > p.rarity then some curr else some p)
    Option.none

/-- The `SelectorCore` hierarchy as stored in rulesets: a bare
`SimpleSelector`, a `SimpleSelectorSequence`, or a composed `Selector`.
A `Selector` stores its member list already reversed
(`this.selectorsReversed = selectors.reverse()`), so `sel` here holds the
closest-to-target member first. -/
inductive SelectorCore where
  | simple (s : SimpleSel) (comb : Combinator)
  | seq (selectors : List SimpleSel) (comb : Combinator)
  | sel (selectorsReversed : List SeqSel)
deriving DecidableEq

def SeqSel.toCore : SeqSel → SelectorCore
  | .simple s c => .simple s c
  | .seq ss c => .seq ss c

/-- Is this selector an `InvalidSelector` instance? -/
def isInvalidCore : SelectorCore → Bool
  | .simple (.invalid _) _ => true
  | _ => false

/-- `SelectorCore#specificity` for each class; a composed `Selector` sums the
specificities of its members. -/
def SelectorCore.specificity : SelectorCore → Nat
  | .simple s _ => s.specificity
  | .seq ss _ => ss.foldl (fun sum s => s.specificity + sum) 0
  | .sel es => es.foldl (fun sum e => e.specificity + sum) 0

/-- The error text thrown by `Selector.match` on an unsupported combinator:
`` `Unsupported combinator '${sel.combinator}'` ``. -/
def unsupportedCombMsg (c : Combinator) : String :=
  "Unsupported combinator " ++ "'" ++ c.text ++ "'"

/-- The `while (node = node.parent) { if (sel.match(node)) return true; }`
walk of the descendant-combinator case: the first strict ancestor of `node`
matched by `e`, if any.  The captured `node` variable rests at that ancestor,
hence the ancestor itself is returned. -/
def findAncestorMatching (e : SeqSel) : Node → Option Node
  | .mk _ _ _ _ _ Option.none => Option.none
  | .mk _ _ _ _ _ (some p) =>
    if e.matches p then some p else findAncestorMatching e p

/-- `Selector#match(node)`: `selectorsReversed.every(sel => switch (sel.combinator) ...)`.
The callback mutates the captured `node` variable (`node = node.parent`),
which this embedding threads explicitly; an unsupported combinator throws,
modelled by `Except.error`. -/
def selectorMatchLoop : List SeqSel → Node → Except String Bool
  | [], _ => .ok true
  | e :: rest, node =>
    match e.comb with
    | .none =>
      if e.matches node then selectorMatchLoop rest node else .ok false
    | .child =>
      match node.parent with
      | Option.none => .ok false
      | some p => if e.matches p then selectorMatchLoop rest p else .ok false
    | .descendant =>
      match findAncestorMatching e node with
      | Option.none => .ok false
      | some p => selectorMatchLoop rest p
    | .adjacent => .error (unsupportedCombMsg .adjacent)
    | .sibling => .error (unsupportedCombMsg .sibling)

/-- `SelectorCore#match(node)`.  Bare simple selectors and sequences never
throw; a composed `Selector` may throw on an unsupported combinator. -/
def SelectorCore.matches : SelectorCore → Node → Except String Bool
  | .simple s _, node => .ok (s.matches node)
  | .seq ss _, node => .ok (ss.all (fun s => s.matches node))
  | .sel es, node => selectorMatchLoop es node

/-! ## The selector parser (spec-modelled) and `createSelector` -/

/-- Tokens produced by the selector parser, as consumed by
`createSimpleSelector`: the parser-side simple-selector variants. -/
inductive TokKind where
  | universal
  | id (ident : String)
  | typeTok (ident : String)
  | cls (ident : String)
  | pseudo (ident : String)
  | attr (prop : String) (testVal : Option (String × String))
deriving DecidableEq

/-- A parsed simple-selector token together with `comb`, the combinator
linking it to the token that follows it (`undefined` within a sequence and
at the end, as consumed by `createSelector`'s grouping loop). -/
structure SelTok where
  kind : TokKind
  comb : Combinator
deriving DecidableEq

def identChar (c : Char) : Bool :=
  c.isAlphanum || c = '-' || c = '_'

/-- Modelled from the spec: the selector parser (`./css-selector-parser`,
whose source is not part of the repository snapshot) per section 4.1:
grammar `*`, `#name`, `.name`, `:name`, `[name]`, `[name op value]` with
`op` among `= ^= $= *= ~= |=` and optionally quoted values, whitespace as
the descendant combinator, `>` (with optional surrounding spaces) as the
child combinator, and failure on malformed input such as an unterminated
bracket or a stray character.  Reads one simple-selector token from the
front, returning the token and the remaining characters. -/
def parseOneTok : List Char → Except String (TokKind × List Char)
  | [] => .error "Expected a selector"
  | '*' :: rest => .ok (.universal, rest)
  | '#' :: rest =>
    let i := rest.takeWhile identChar
    if i.isEmpty then .error "Expected an identifier after #"
    else .ok (.id ⟨i⟩, rest.dropWhile identChar)
  | '.' :: rest =>
    let i := rest.takeWhile identChar
    if i.isEmpty then .error "Expected an identifier after ."
    else .ok (.cls ⟨i⟩, rest.dropWhile identChar)
  | ':' :: rest =>
    let i := rest.takeWhile identChar
    if i.isEmpty then .error "Expected an identifier after :"
    else .ok (.pseudo ⟨i⟩, rest.dropWhile identChar)
  | '[' :: rest =>
    let prop := rest.takeWhile identChar
    if prop.isEmpty then .error "Expected an attribute name" else
    let rest1 := (rest.dropWhile identChar).dropWhile (fun c => c = ' ')
    match rest1 with
    | ']' :: rest2 => .ok (.attr ⟨prop⟩ Option.none, rest2)
    | '=' :: rest2 => parseAttrValue ⟨prop⟩ "=" rest2
    | '^' :: '=' :: rest2 => parseAttrValue ⟨prop⟩ "^=" rest2
    | '$' :: '=' :: rest2 => parseAttrValue ⟨prop⟩ "$=" rest2
    | '*' :: '=' :: rest2 => parseAttrValue ⟨prop⟩ "*=" rest2
    | '~' :: '=' :: rest2 => parseAttrValue ⟨prop⟩ "~=" rest2
    | '|' :: '=' :: rest2 => parseAttrValue ⟨prop⟩ "|=" rest2
    | _ => .error "Expected an attribute test or a closing bracket"
  | c :: rest =>
    if c.isAlpha || c = '_' then
      .ok (.typeTok ⟨c :: rest.takeWhile identChar⟩, rest.dropWhile identChar)
    else .error "Unexpected character in selector"
where
  /-- Modelled from the spec: read the (optionally quoted) value of an
  attribute test and the closing bracket. -/
  parseAttrValue (prop test : String) (cs : List Char) :
      Except String (TokKind × List Char) :=
    let cs := cs.dropWhile (fun c => c = ' ')
    match cs with
    | '"' :: cs1 =>
      let v := cs1.takeWhile (fun c => c ≠ '"')
      match (cs1.dropWhile (fun c => c ≠ '"')) with
      | '"' :: cs2 =>
        match cs2.dropWhile (fun c => c = ' ') with
        | ']' :: cs3 => .ok (.attr prop (some (test, ⟨v⟩)), cs3)
        | _ => .error "Expected a closing bracket"
      | _ => .error "Unterminated quoted attribute value"
    | '\'' :: cs1 =>
      let v := cs1.takeWhile (fun c => c ≠ '\'')
      match (cs1.dropWhile (fun c => c ≠ '\'')) with
      | '\'' :: cs2 =>
        match cs2.dropWhile (fun c => c = ' ') with
        | ']' :: cs3 => .ok (.attr prop (some (test, ⟨v⟩)), cs3)
        | _ => .error "Expected a closing bracket"
      | _ => .error "Unterminated quoted attribute value"
    | _ =>
      let v := ((cs.takeWhile (fun c => c ≠ ']')).reverse.dropWhile (fun c => c = ' ')).reverse
      match cs.dropWhile (fun c => c ≠ ']') with
      | ']' :: cs1 => .ok (.attr prop (some (test, ⟨v⟩)), cs1)
      | _ => .error "Unterminated attribute selector"

/-- Modelled from the spec: the parser's main loop — one token, then the
combinator separating it from the next token (`>` possibly surrounded by
whitespace is child, bare whitespace is descendant, direct adjacency keeps
the tokens in the same sequence).  `fuel` bounds recursion; each step
consumes at least one character, so `length + 1` suffices. -/
def parseLoop : Nat → List Char → Except String (List SelTok)
  | 0, _ => .error "Selector too long"
  | fuel + 1, cs => do
    let (kind, rest) ← parseOneTok cs
    let ws := rest.takeWhile (fun c => c = ' ')
    let rest1 := rest.dropWhile (fun c => c = ' ')
    match rest1 with
    | [] => .ok [⟨kind, .none⟩]
    | '>' :: rest2 => do
      let toks ← parseLoop fuel (rest2.dropWhile (fun c => c = ' '))
      .ok (⟨kind, .child⟩ :: toks)
    | _ =>
      if ws.isEmpty then do
        let toks ← parseLoop fuel rest1
        .ok (⟨kind, .none⟩ :: toks)
      else do
        let toks ← parseLoop fuel rest1
        .ok (⟨kind, .descendant⟩ :: toks)

/-- Modelled from the spec: `selectorParser.parse` — tokenize a selector's
text; whitespace-only input yields the empty token list (which
`createSelector` turns into the "Empty selector" `InvalidSelector`). -/
def parse (text : String) : Except String (List SelTok) :=
  let cs := text.data.dropWhile (fun c => c = ' ')
  if cs.isEmpty then .ok [] else parseLoop (cs.length + 1) cs

/-- JavaScript's `toLowerCase()` character by character (the identifiers in
play are basic latin, where JS and `Char.toLower` agree). -/
def toLowerStr (s : String) : String :=
  ⟨s.data.map Char.toLower⟩

/-- The dash removal `sel.ident.replace(regex dash, empty)` of the source:
the regex literal there carries no global flag, so `String.replace` removes
only the first dash. -/
def removeFirstDash (s : String) : String :=
  ⟨go s.data⟩
where
  go : List Char → List Char
    | [] => []
    | c :: cs => if c = '-' then cs else c :: go cs

/-- `createSimpleSelector`: dispatch on the parser token kind.  The type
case builds `new TypeSelector(...)` with the first dash removed (non-global
regex replace) and the result lower-cased. -/
def createSimpleSelector : TokKind → SimpleSel
  | .universal => .universal
  | .id i => .id i
  | .typeTok i => .typeSel (toLowerStr (removeFirstDash i))
  | .cls i => .cls i
  | .pseudo i => .pseudo i
  | .attr p (some (t, v)) => .attr p (some (t, v))
  | .attr p Option.none => .attr p Option.none

/-- The sequence-grouping loop of `createSelector`: walk the tokens with an
accumulator for the open sequence; a boundary is a truthy `astComb` or the
last token; a one-element group stays a bare `SimpleSelector`, a longer
group becomes a `SimpleSelectorSequence`, in both cases carrying the
boundary token's combinator. -/
def buildSequences (acc : List SimpleSel) :
    List (SimpleSel × Combinator) → List SeqSel
  | [] => []
  | [(s, c)] =>
    match acc with
    | [] => [.simple s c]
    | _ => [.seq (acc ++ [s]) c]
  | (s, c) :: rest =>
    match c with
    | .none => buildSequences (acc ++ [s]) rest
    | comb =>
      (match acc with
       | [] => SeqSel.simple s comb
       | _ => SeqSel.seq (acc ++ [s]) comb) :: buildSequences [] rest

/-- `createSelector(sel)`: parse, turn tokens into simple selectors, group
them into sequences, and either return the single sequence unwrapped or wrap
the sequences into a `Selector` (which stores them reversed).  A parse
failure is caught and becomes an `InvalidSelector`; an empty parse yields the
"Empty selector" `InvalidSelector`. -/
def createSelector (text : String) : SelectorCore :=
  match parse text with
  | .error e => .simple (.invalid e) .none
  | .ok [] => .simple (.invalid "Empty selector") .none
  | .ok toks =>
    let selectors := toks.map (fun t => (createSimpleSelector t.kind, t.comb))
    match buildSequences [] selectors with
    | [one] => one.toCore
    | sequences => .sel sequences.reverse

/-! ## RuleSets and the ast-to-rulesets pass -/

/-- `Declaration`: `{property, value}`. -/
structure Declaration where
  property : String
  value : String
deriving DecidableEq

/-- A rule node of the css parser's ast, as consumed by `fromAstNodes`:
only `type === "rule"` nodes are kept, and inside a rule only
`type === "declaration"` children. -/
inductive CssDeclNode where
  | decl (property : String) (value : String)
  | comm (text : String)
deriving DecidableEq

inductive CssNode where
  | rule (selectors : List String) (declarations : List CssDeclNode)
  | other
deriving DecidableEq

def isRule : CssNode → Bool
  | .rule _ _ => true
  | .other => false

def isDeclaration : CssDeclNode → Bool
  | .decl _ _ => true
  | .comm _ => false

/-- `createDeclaration`: lower-cases the property name. -/
def createDeclaration : CssDeclNode → Declaration
  | .decl p v => ⟨toLowerStr p, v⟩
  | .comm _ => ⟨"", ""⟩

/-- `RuleSet`: the selector group of one rule plus its declarations. -/
structure RuleSet where
  selectors : List SelectorCore
  declarations : List Declaration
deriving DecidableEq

/-- `fromAstNodes`: keep the rule nodes, map each rule's selector strings
through `createSelector` and its declaration children through
`createDeclaration`. -/
def fromAstNodes (astRules : List CssNode) : List RuleSet :=
  (astRules.filter isRule).map (fun r =>
    match r with
    | .rule sels decls =>
      ⟨sels.map createSelector, (decls.filter isDeclaration).map createDeclaration⟩
    | .other => ⟨[], []⟩)

/-! ## The `SelectorsMap` index -/

/-- `SelectorInDocument`: a filed selector together with its insertion
sequence number. -/
structure DocSel where
  sel : SelectorCore
  pos : Nat
deriving DecidableEq

/-- The `SelectorsMap` state: the three string-keyed JavaScript objects
(modelled as association lists), the universal bucket, and the `position`
counter. -/
structure SelectorsMap where
  idMap : List (String × List DocSel)
  classMap : List (String × List DocSel)
  typeMap : List (String × List DocSel)
  universal : List DocSel
  position : Nat

def SelectorsMap.empty : SelectorsMap := ⟨[], [], [], [], 0⟩

/-- The JavaScript object lookup `map[head]`. -/
def mapGet : List (String × List DocSel) → String → Option (List DocSel)
  | [], _ => Option.none
  | p :: rest, k => if p.1 = k then some p.2 else mapGet rest k

/-- The bucket update of `addToMap`: `list ? list.push(d) : map[head] = [d]`
— append to the existing key's list, or add a new key. -/
def mapAdd : List (String × List DocSel) → String → DocSel → List (String × List DocSel)
  | [], k, d => [(k, [d])]
  | p :: rest, k, d =>
    if p.1 = k then (p.1, p.2 ++ [d]) :: rest else p :: mapAdd rest k d

/-- `makeDocSelector`: record the current position and bump the counter. -/
def makeDocSelector (st : SelectorsMap) (s : SelectorCore) : DocSel × SelectorsMap :=
  (⟨s, st.position⟩, { st with position := st.position + 1 })

/-- The extra `this.position++` executed by `addToMap` before
`makeDocSelector` runs. -/
def bumpPosition (st : SelectorsMap) : SelectorsMap :=
  { st with position := st.position + 1 }

def sortById (k : String) (s : SelectorCore) (st : SelectorsMap) : SelectorsMap :=
  let st1 := bumpPosition st
  let (d, st2) := makeDocSelector st1 s
  { st2 with idMap := mapAdd st2.idMap k d }

def sortByClass (k : String) (s : SelectorCore) (st : SelectorsMap) : SelectorsMap :=
  let st1 := bumpPosition st
  let (d, st2) := makeDocSelector st1 s
  { st2 with classMap := mapAdd st2.classMap k d }

def sortByType (k : String) (s : SelectorCore) (st : SelectorsMap) : SelectorsMap :=
  let st1 := bumpPosition st
  let (d, st2) := makeDocSelector st1 s
  { st2 with typeMap := mapAdd st2.typeMap k d }

def sortAsUniversal (s : SelectorCore) (st : SelectorsMap) : SelectorsMap :=
  let (d, st1) := makeDocSelector st s
  { st1 with universal := st1.universal ++ [d] }

/-- `lookupSort` dispatch for a simple selector filing `filed` (the
`base || this` argument): `IdSelector`, `ClassSelector` and `TypeSelector`
file under their key; `InvalidSelector` files nothing; `UniversalSelector`,
`PseudoClassSelector` and `AttributeSelector` inherit
`SelectorCore.lookupSort`, the universal bucket. -/
def simpleLookupSort (s : SimpleSel) (filed : SelectorCore) (st : SelectorsMap) :
    SelectorsMap :=
  match s with
  | .invalid _ => st
  | .id i => sortById i filed st
  | .typeSel t => sortByType t filed st
  | .cls c => sortByClass c filed st
  | .universal => sortAsUniversal filed st
  | .pseudo _ => sortAsUniversal filed st
  | .attr _ _ => sortAsUniversal filed st

/-- `lookupSort` for a chain member: a bare simple selector dispatches
directly; a `SimpleSelectorSequence` delegates to its `head`. -/
def SeqSel.lookupSort : SeqSel → SelectorCore → SelectorsMap → SelectorsMap
  | .simple s _, filed, st => simpleLookupSort s filed st
  | .seq ss _, filed, st =>
    match sequenceHead ss with
    | Option.none => st
    | some h => simpleLookupSort h filed st

/-- `SelectorCore#lookupSort(sorter)` as invoked by `RuleSet.lookupSort`
(no explicit base, so `base || this` is the selector itself).  A composed
`Selector` delegates to `selectorsReversed[0]` with itself as base. -/
def SelectorCore.lookupSort : SelectorCore → SelectorsMap → SelectorsMap
  | .simple s c, st => simpleLookupSort s (.simple s c) st
  | .seq ss c, st =>
    match sequenceHead ss with
    | Option.none => st
    | some h => simpleLookupSort h (.seq ss c) st
  | .sel es, st =>
    match es with
    | [] => st
    | e :: _ => e.lookupSort (.sel es) st

/-- `RuleSet#lookupSort`: `this.selectors.forEach(sel => sel.lookupSort(sorter))`. -/
def RuleSet.lookupSort (r : RuleSet) (st : SelectorsMap) : SelectorsMap :=
  r.selectors.foldl (fun st s => s.lookupSort st) st

/-- The `SelectorsMap` constructor: `rulesets.forEach(rule => rule.lookupSort(this))`. -/
def buildSelectorsMap (rulesets : List RuleSet) : SelectorsMap :=
  rulesets.foldl (fun st r => r.lookupSort st) SelectorsMap.empty

/-- The candidate gathering of `query`: the universal bucket, the id bucket
for `node.id`, the type bucket for `node.cssType`, and (when the capability
is present) one class bucket per class, with absent buckets filtered out
(`.filter(arr => !!arr)`) and the rest concatenated by
`.reduce((cur, next) => cur.concat(next), [])`. -/
def gatherCandidates (m : SelectorsMap) (node : Node) : List DocSel :=
  let selectorClasses :=
    [some m.universal, mapGet m.idMap node.id, mapGet m.typeMap node.cssType] ++
      (match node.cssClasses with
       | Option.none => []
       | some cs => cs.map (fun c => mapGet m.classMap c))
  (selectorClasses.filterMap (fun x => x)).foldl (fun cur next => cur ++ next) []

/-- The comparator `(a, b) => a.sel.specificity - b.sel.specificity || a.pos - b.pos`
as the ordering relation it sorts by. -/
def docLE (a b : DocSel) : Prop :=
  a.sel.specificity < b.sel.specificity ∨
    (a.sel.specificity = b.sel.specificity ∧ a.pos ≤ b.pos)

instance : DecidableRel docLE := fun a b => by
  unfold docLE; exact inferInstance

instance : IsTotal DocSel docLE := by
  constructor; intro a b; unfold docLE; omega

instance : IsTrans DocSel docLE := by
  constructor; intro a b c; unfold docLE; omega

/-- `query(node)` before the final `.map(docSel => docSel.sel)`: candidates
sorted by the specificity-then-position comparator.  All positions in the
map are distinct, so the comparator is a strict total order on the
candidates and any comparison sort returns this unique sorted permutation. -/
def SelectorsMap.queryDoc (m : SelectorsMap) (node : Node) : List DocSel :=
  List.insertionSort docLE (gatherCandidates m node)

/-- `SelectorsMap#query(node)`. -/
def SelectorsMap.query (m : SelectorsMap) (node : Node) : List SelectorCore :=
  (m.queryDoc node).map (fun d => d.sel)

/-! ## Spec-side definitions used to compare against the source embedding -/

/-- The spec's type-name normalization in its own words: "normalized by
stripping dashes and lower-casing" — all dashes removed, then lower-cased.
Stated only for comparison with the compiled `TypeSelector`. -/
def specTypeNormalize (t : String) : String :=
  toLowerStr ⟨t.data.filter (fun c => c ≠ '-')⟩

/-- Is the combinator one of the supported kinds {none, child, descendant}? -/
def combSupported : Combinator → Bool
  | .none => true
  | .child => true
  | .descendant => true
  | .adjacent => false
  | .sibling => false

/-- The strict ancestors of a node, nearest first. -/
def ancestors : Node → List Node
  | .mk _ _ _ _ _ Option.none => []
  | .mk _ _ _ _ _ (some p) => p :: ancestors p

/-- The matching algorithm in the spec's words: iterate the reversed
sequence list threading a current node; a no-combinator entry is tested
against the current node itself; a child entry is tested against the parent,
failing if absent; a descendant entry walks successive parents until one
matches, failing if the root is exhausted (here: the first matching strict
ancestor, via `List.find?`).  Defined only over the supported combinators,
for comparison with `selectorMatchLoop`. -/
def specSelectorMatch : List SeqSel → Node → Bool
  | [], _ => true
  | e :: rest, node =>
    match e.comb with
    | .none => e.matches node && specSelectorMatch rest node
    | .child =>
      match node.parent with
      | Option.none => false
      | some p => e.matches p && specSelectorMatch rest p
    | .descendant =>
      match (ancestors node).find? (fun a => e.matches a) with
      | Option.none => false
      | some p => specSelectorMatch rest p
    | _ => false

/-! ## Concrete fixtures used by the claim theorems -/

/-- A rule whose only selector is the compound `#foo.bar` (a
`SimpleSelectorSequence` of an id and a class selector). -/
def compoundRule : RuleSet := ⟨[.seq [.id "foo", .cls "bar"] .none], []⟩

/-- A node with id `foo` and type `button` but *without* class `bar`. -/
def nodeFooNoBar : Node := .mk "foo" "button" (some []) Option.none [] Option.none

def ruleIdA : RuleSet := ⟨[.simple (.id "a") .none], []⟩
def ruleClsB : RuleSet := ⟨[.simple (.cls "b") .none], []⟩
def ruleTypeDiv : RuleSet := ⟨[.simple (.typeSel "div") .none], []⟩
def ruleUnivStar : RuleSet := ⟨[.simple .universal .none], []⟩

/-- A node matched by `#a`, `.b`, `div` and `*` at once. -/
def nodeAbDiv : Node := .mk "a" "div" (some ["b"]) Option.none [] Option.none

def sectionNode : Node := .mk "" "section" Option.none Option.none [] Option.none
def wrapperNode : Node :=
  .mk "" "stacklayout" Option.none Option.none [] (some sectionNode)
/-- A `.row` node two levels below `section` (intermediate wrapper). -/
def rowDeep : Node := .mk "" "label" (some ["row"]) Option.none [] (some wrapperNode)
/-- A `.row` node whose immediate parent is the `section` node. -/
def rowDirect : Node := .mk "" "label" (some ["row"]) Option.none [] (some sectionNode)
def plainRoot : Node := .mk "" "page" Option.none Option.none [] Option.none
/-- A `.row` node with no `section` ancestor at all. -/
def rowOrphan : Node := .mk "" "label" (some ["row"]) Option.none [] (some plainRoot)

/-- The compiled `section > .row` (stored reversed, `.row` first). -/
def childComboSel : SelectorCore :=
  .sel [.simple (.cls "row") .none, .simple (.typeSel "section") .child]

/-- The compiled `section .row` (stored reversed, `.row` first). -/
def descComboSel : SelectorCore :=
  .sel [.simple (.cls "row") .none, .simple (.typeSel "section") .descendant]

/-- A two-rule style sheet: a malformed selector followed by a well-formed
one. -/
def sheetWithBadRule : List CssNode :=
  [.rule ["[unterminated"] [.decl "color" "red"],
   .rule [".ok"] [.decl "color" "blue"]]

/-- A node with class `ok`. -/
def nodeOk : Node := .mk "" "button" (some ["ok"]) Option.none [] Option.none

def ruleIdFoo : RuleSet := ⟨[.simple (.id "foo") .none], []⟩
def ruleClsBar : RuleSet := ⟨[.simple (.cls "bar") .none], []⟩
def ruleTypeButton : RuleSet := ⟨[.simple (.typeSel "button") .none], []⟩
def ruleUnivAll : RuleSet := ⟨[.simple .universal .none], []⟩

/-- A node with `id=foo, classes={bar}, type=button`. -/
def nodeFooBarButton : Node :=
  .mk "foo" "button" (some ["bar"]) Option.none [] Option.none

/-- A node carrying neither the `cssClasses` nor the `cssPseudoClasses`
capability. -/
def nodeNoCaps : Node := .mk "" "label" Option.none Option.none [] Option.none

/-- All ways of inserting `x` into a list (used to enumerate permutations
of the concrete rule lists). -/
def insertEverywhere {α : Type} (x : α) : List α → List (List α)
  | [] => [[x]]
  | y :: ys => (x :: y :: ys) :: (insertEverywhere x ys).map (fun zs => y :: zs)

/-- A structural enumeration of all permutations of a list. -/
def allPerms {α : Type} : List α → List (List α)
  | [] => [[]]
  | x :: xs => (allPerms xs).flatMap (insertEverywhere x)

/-! ## Helper lemmas -/

/-- All docsels stored across the buckets of one string-keyed map. -/
def bucketDocs (m : List (String × List DocSel)) : List DocSel :=
  m.foldr (fun p acc => p.2 ++ acc) []

/-- All docsels stored anywhere in a `SelectorsMap`. -/
def allDocs (st : SelectorsMap) : List DocSel :=
  st.universal ++ bucketDocs st.idMap ++ bucketDocs st.classMap ++ bucketDocs st.typeMap

theorem mem_foldl_append {α : Type} (d : α) :
    ∀ (ls : List (List α)) (init : List α),
      d ∈ ls.foldl (fun cur next => cur ++ next) init ↔
        d ∈ init ∨ ∃ l, l ∈ ls ∧ d ∈ l := by
  intro ls
  induction ls with
  | nil => simp
  | cons hd tl ih =>
    intro init
    simp only [List.foldl_cons, ih, List.mem_append, List.mem_cons]
    constructor
    · rintro ((h | h) | ⟨l, hl, hd'⟩)
      · exact Or.inl h
      · exact Or.inr ⟨hd, Or.inl rfl, h⟩
      · exact Or.inr ⟨l, Or.inr hl, hd'⟩
    · rintro (h | ⟨l, (rfl | hl), hd'⟩)
      · exact Or.inl (Or.inl h)
      · exact Or.inl (Or.inr hd')
      · exact Or.inr ⟨l, hl, hd'⟩

theorem mem_of_mapGet {m : List (String × List DocSel)} {k : String}
    {l : List DocSel} {d : DocSel} (h : mapGet m k = some l) (hd : d ∈ l) :
    d ∈ bucketDocs m := by
  induction m with
  | nil => simp [mapGet] at h
  | cons p rest ih =>
    simp only [mapGet] at h
    by_cases hk : p.1 = k
    · simp only [hk, if_pos rfl] at h
      cases h
      simp only [bucketDocs, List.foldr_cons, List.mem_append]
      exact Or.inl hd
    · rw [if_neg hk] at h
      simp only [bucketDocs, List.foldr_cons, List.mem_append]
      exact Or.inr (ih h)

theorem mem_bucketDocs_mapAdd {m : List (String × List DocSel)} {k : String}
    {nd d : DocSel} (h : d ∈ bucketDocs (mapAdd m k nd)) :
    d ∈ bucketDocs m ∨ d = nd := by
  induction m with
  | nil =>
    simp only [mapAdd, bucketDocs, List.foldr_cons, List.foldr_nil,
      List.append_nil, List.mem_singleton] at h
    exact Or.inr h
  | cons p rest ih =>
    simp only [mapAdd] at h
    by_cases hk : p.1 = k
    · rw [if_pos hk] at h
      simp only [bucketDocs, List.foldr_cons, List.mem_append, List.mem_singleton] at h ⊢
      rcases h with (h | h) | h
      · exact Or.inl (Or.inl h)
      · exact Or.inr h
      · exact Or.inl (Or.inr h)
    · rw [if_neg hk] at h
      simp only [bucketDocs, List.foldr_cons, List.mem_append] at h ⊢
      rcases h with h | h
      · exact Or.inl (Or.inl h)
      · rcases ih h with h' | h'
        · exact Or.inl (Or.inr h')
        · exact Or.inr h'

theorem mem_allDocs_sortById {k : String} {s : SelectorCore} {st : SelectorsMap}
    {d : DocSel} (h : d ∈ allDocs (sortById k s st)) :
    d ∈ allDocs st ∨ d.sel = s := by
  simp only [sortById, bumpPosition, makeDocSelector, allDocs, List.mem_append] at h ⊢
  rcases h with ((h | h) | h) | h
  · tauto
  · rcases mem_bucketDocs_mapAdd h with h' | h'
    · tauto
    · subst h'
      exact Or.inr rfl
  · tauto
  · tauto

theorem mem_allDocs_sortByClass {k : String} {s : SelectorCore} {st : SelectorsMap}
    {d : DocSel} (h : d ∈ allDocs (sortByClass k s st)) :
    d ∈ allDocs st ∨ d.sel = s := by
  simp only [sortByClass, bumpPosition, makeDocSelector, allDocs, List.mem_append] at h ⊢
  rcases h with ((h | h) | h) | h
  · tauto
  · tauto
  · rcases mem_bucketDocs_mapAdd h with h' | h'
    · tauto
    · subst h'
      exact Or.inr rfl
  · tauto

theorem mem_allDocs_sortByType {k : String} {s : SelectorCore} {st : SelectorsMap}
    {d : DocSel} (h : d ∈ allDocs (sortByType k s st)) :
    d ∈ allDocs st ∨ d.sel = s := by
  simp only [sortByType, bumpPosition, makeDocSelector, allDocs, List.mem_append] at h ⊢
  rcases h with ((h | h) | h) | h
  · tauto
  · tauto
  · tauto
  · rcases mem_bucketDocs_mapAdd h with h' | h'
    · tauto
    · subst h'
      exact Or.inr rfl

theorem mem_allDocs_sortAsUniversal {s : SelectorCore} {st : SelectorsMap}
    {d : DocSel} (h : d ∈ allDocs (sortAsUniversal s st)) :
    d ∈ allDocs st ∨ d.sel = s := by
  simp only [sortAsUniversal, makeDocSelector, allDocs, List.mem_append,
    List.mem_singleton] at h ⊢
  rcases h with (((h | h) | h) | h) | h
  · tauto
  · subst h
    exact Or.inr rfl
  · tauto
  · tauto
  · tauto

theorem mem_allDocs_simpleLookup {s : SimpleSel} {filed : SelectorCore}
    {st : SelectorsMap} {d : DocSel}
    (h : d ∈ allDocs (simpleLookupSort s filed st)) :
    d ∈ allDocs st ∨ d.sel = filed := by
  cases s with
  | invalid e => exact Or.inl h
  | universal => exact mem_allDocs_sortAsUniversal h
  | id i => exact mem_allDocs_sortById h
  | typeSel t => exact mem_allDocs_sortByType h
  | cls c => exact mem_allDocs_sortByClass h
  | pseudo p => exact mem_allDocs_sortAsUniversal h
  | attr a tv => exact mem_allDocs_sortAsUniversal h

theorem mem_allDocs_seqLookup {e : SeqSel} {filed : SelectorCore}
    {st : SelectorsMap} {d : DocSel}
    (h : d ∈ allDocs (e.lookupSort filed st)) :
    d ∈ allDocs st ∨ d.sel = filed := by
  cases e with
  | simple s c => exact mem_allDocs_simpleLookup h
  | seq ss c =>
    simp only [SeqSel.lookupSort] at h
    cases hh : sequenceHead ss with
    | none =>
      rw [hh] at h
      exact Or.inl h
    | some hd =>
      rw [hh] at h
      exact mem_allDocs_simpleLookup h

theorem mem_allDocs_coreLookup {sel : SelectorCore} {st : SelectorsMap}
    {d : DocSel} (h : d ∈ allDocs (sel.lookupSort st)) :
    d ∈ allDocs st ∨ (d.sel = sel ∧ isInvalidCore sel = false) := by
  cases sel with
  | simple s c =>
    cases s with
    | invalid e => exact Or.inl h
    | universal => exact (mem_allDocs_sortAsUniversal h).imp id (fun h' => ⟨h', rfl⟩)
    | id i => exact (mem_allDocs_sortById h).imp id (fun h' => ⟨h', rfl⟩)
    | typeSel t => exact (mem_allDocs_sortByType h).imp id (fun h' => ⟨h', rfl⟩)
    | cls c' => exact (mem_allDocs_sortByClass h).imp id (fun h' => ⟨h', rfl⟩)
    | pseudo p => exact (mem_allDocs_sortAsUniversal h).imp id (fun h' => ⟨h', rfl⟩)
    | attr a tv => exact (mem_allDocs_sortAsUniversal h).imp id (fun h' => ⟨h', rfl⟩)
  | seq ss c =>
    simp only [SelectorCore.lookupSort] at h
    cases hh : sequenceHead ss with
    | none =>
      rw [hh] at h
      exact Or.inl h
    | some hd =>
      rw [hh] at h
      exact (mem_allDocs_simpleLookup h).imp id (fun h' => ⟨h', rfl⟩)
  | sel es =>
    cases es with
    | nil => exact Or.inl h
    | cons e rest =>
      exact (mem_allDocs_seqLookup h).imp id (fun h' => ⟨h', rfl⟩)

/-- Filing an entire selector list preserves "no invalid selector filed". -/
theorem noInvalid_foldl_selectors (sels : List SelectorCore) (st : SelectorsMap)
    (hst : ∀ d ∈ allDocs st, isInvalidCore d.sel = false) :
    ∀ d ∈ allDocs (sels.foldl (fun st s => s.lookupSort st) st),
      isInvalidCore d.sel = false := by
  induction sels generalizing st with
  | nil => exact hst
  | cons s rest ih =>
    refine ih _ (fun d hd => ?_)
    rcases mem_allDocs_coreLookup hd with h | ⟨h1, h2⟩
    · exact hst d h
    · rw [h1]
      exact h2

theorem noInvalid_build (rulesets : List RuleSet) :
    ∀ d ∈ allDocs (buildSelectorsMap rulesets), isInvalidCore d.sel = false := by
  have main : ∀ (rs : List RuleSet) (st : SelectorsMap),
      (∀ d ∈ allDocs st, isInvalidCore d.sel = false) →
      ∀ d ∈ allDocs (rs.foldl (fun st r => r.lookupSort st) st),
        isInvalidCore d.sel = false := by
    intro rs
    induction rs with
    | nil => exact fun st hst => hst
    | cons r rest ih =>
      intro st hst
      exact ih _ (noInvalid_foldl_selectors r.selectors st hst)
  refine main rulesets SelectorsMap.empty (fun d hd => absurd hd ?_)
  simp [allDocs, SelectorsMap.empty, bucketDocs]

theorem mem_gatherCandidates {m : SelectorsMap} {node : Node} {d : DocSel}
    (h : d ∈ gatherCandidates m node) : d ∈ allDocs m := by
  simp only [gatherCandidates] at h
  rw [mem_foldl_append] at h
  rcases h with h | ⟨l, hl, hd⟩
  · simp at h
  · rw [List.mem_filterMap] at hl
    rcases hl with ⟨a, ha, hal⟩
    subst hal
    simp only [List.mem_append, List.mem_cons, List.not_mem_nil, or_false] at ha
    rcases ha with (ha | ha | ha) | ha
    · have hl : l = m.universal := Option.some.inj ha
      subst hl
      simp only [allDocs, List.mem_append]
      tauto
    · have := mem_of_mapGet ha.symm hd
      simp only [allDocs, List.mem_append]
      tauto
    · have := mem_of_mapGet ha.symm hd
      simp only [allDocs, List.mem_append]
      tauto
    · rcases hcc : node.cssClasses with _ | cs
      · rw [hcc] at ha
        simp at ha
      · rw [hcc] at ha
        rw [List.mem_map] at ha
        rcases ha with ⟨c, _, hc⟩
        have := mem_of_mapGet hc hd
        simp only [allDocs, List.mem_append]
        tauto

/-- The source's descendant walk computes the first matching strict
ancestor. -/
theorem findAncestor_eq_find (e : SeqSel) :
    ∀ node : Node,
      findAncestorMatching e node = (ancestors node).find? (fun a => e.matches a)
  | .mk _ _ _ _ _ Option.none => rfl
  | .mk i t cc pc ats (some p) => by
    have hrec := findAncestor_eq_find e p
    rcases hm : e.matches p with _ | _
    · simp [findAncestorMatching, ancestors, List.find?, hm, hrec]
    · simp [findAncestorMatching, ancestors, List.find?, hm]

theorem mem_insertEverywhere {α : Type} (x : α) :
    ∀ (s t : List α), s ++ x :: t ∈ insertEverywhere x (s ++ t) := by
  intro s
  induction s with
  | nil =>
    intro t
    cases t with
    | nil => simp [insertEverywhere]
    | cons y ys => simp [insertEverywhere]
  | cons y s' ih =>
    intro t
    simp only [List.cons_append, insertEverywhere, List.mem_cons, List.mem_map]
    exact Or.inr ⟨s' ++ x :: t, ih t, rfl⟩

/-- Completeness of the permutation enumeration: every permutation of `l`
appears in `allPerms l`. -/
theorem mem_allPerms_of_perm {α : Type} :
    ∀ {l₁ l₂ : List α}, l₂.Perm l₁ → l₂ ∈ allPerms l₁ := by
  intro l₁
  induction l₁ with
  | nil =>
    intro l₂ h
    rw [List.perm_nil] at h
    subst h
    simp [allPerms]
  | cons x xs ih =>
    intro l₂ h
    have hx : x ∈ l₂ := h.symm.subset (List.mem_cons_self x xs)
    obtain ⟨s, t, rfl⟩ := List.append_of_mem hx
    have h2 : (s ++ t).Perm xs := by
      have hm : (s ++ x :: t).Perm (x :: (s ++ t)) := List.perm_middle
      exact (hm.symm.trans h).cons_inv
    have h3 := ih h2
    simp only [allPerms, List.mem_flatMap]
    exact ⟨s ++ t, h3, mem_insertEverywhere x s t⟩

/-! ## Claim theorems -/

/-- Counterexample for C1: the claim that every selector in the list
returned by `query(node)` satisfies `match(node) = true` is false.  For the
single rule `#foo.bar` and a node with id `foo` but without class `bar`,
`query` returns the compound selector even though its full match fails:
`query` performs no match filtering at all. -/
theorem c1_counterexample :
    (buildSelectorsMap [compoundRule]).query nodeFooNoBar =
        [.seq [.id "foo", .cls "bar"] .none] ∧
      (SelectorCore.seq [.id "foo", .cls "bar"] .none).matches nodeFooNoBar =
        .ok false := by
  constructor
  · rfl
  · rfl

/-- C1 (amended): `SelectorsMap.query(node)` returns exactly the selectors
gathered from the head-indexed buckets (universal + id + type + class),
sorted — with no filtering by `match(node)`; full matching is left to the
caller. -/
theorem c1_query_returns_all_candidates (m : SelectorsMap) (node : Node)
    (s : SelectorCore) :
    s ∈ m.query node ↔ ∃ d ∈ gatherCandidates m node, d.sel = s := by
  simp only [SelectorsMap.query, SelectorsMap.queryDoc, List.mem_map,
    List.mem_insertionSort]

/-- C2: the list returned by `query(node)` is sorted ascending by
specificity with ties broken by ascending insertion position (document
order); concretely, a node matched by `#a`, `.b`, `div` and `*` gets them
back in the order `*`, `div`, `.b`, `#a`. -/
theorem c2_query_sorted :
    (∀ (m : SelectorsMap) (node : Node), (m.queryDoc node).Sorted docLE) ∧
      (buildSelectorsMap [ruleIdA, ruleClsB, ruleTypeDiv, ruleUnivStar]).query
          nodeAbDiv =
        [.simple .universal .none, .simple (.typeSel "div") .none,
         .simple (.cls "b") .none, .simple (.id "a") .none] := by
  constructor
  · intro m node
    exact List.sorted_insertionSort docLE (gatherCandidates m node)
  · rfl

/-- Counterexample for C3: the claim that a compiled `TypeSelector`'s
`cssType` equals the identifier with its dashes (all of them) stripped and
lower-cased fails on identifiers with more than one dash — the source's
dash-removing regex is not global, so only the first dash is removed, and
the resulting selector does not match a node whose type tag is the fully
dash-stripped name. -/
theorem c3_counterexample :
    createSimpleSelector (.typeTok "Segmented-Bar-Item") =
        .typeSel "segmentedbar-item" ∧
      specTypeNormalize "Segmented-Bar-Item" = "segmentedbaritem" ∧
      ("segmentedbar-item" : String) ≠ "segmentedbaritem" ∧
      (SimpleSel.typeSel "segmentedbar-item").matches
          (.mk "" "segmentedbaritem" Option.none Option.none [] Option.none) =
        false := by
  refine ⟨rfl, rfl, ?_, rfl⟩
  decide

/-- C3 (amended): the compiled `TypeSelector`'s `cssType` is the identifier
with its *first* dash removed and then lower-cased, and `match(node)` holds
exactly when `node.cssType` equals that name; since `ListView`, `listview`,
`List-View` and `list-view` each contain at most one dash, all four still
normalize to `listview`. -/
theorem c3_type_normalization :
    (∀ t : String,
        createSimpleSelector (.typeTok t) = .typeSel (toLowerStr (removeFirstDash t))) ∧
      (∀ (t : String) (node : Node),
        (SimpleSel.typeSel t).matches node = (node.cssType == t)) ∧
      ["ListView", "listview", "List-View", "list-view"].map
          (fun t => createSimpleSelector (.typeTok t)) =
        [.typeSel "listview", .typeSel "listview", .typeSel "listview",
         .typeSel "listview"] := by
  exact ⟨fun t => rfl, fun t node => rfl, rfl⟩

/-- C4: `Selector.match` iterates the reversed sequence list exactly as the
spec words it — first entry against the node itself, child entries against
the current node's parent (failing when absent), descendant entries by
walking successive parents until a match (failing at the root) — and on the
concrete trees, `section > .row` does not match a `.row` two levels below
`section` while `section .row` does, and `section .row` fails with no
`section` ancestor. -/
theorem c4_selector_match_algorithm :
    (∀ (es : List SeqSel) (node : Node),
        es.all (fun e => combSupported e.comb) = true →
          selectorMatchLoop es node = .ok (specSelectorMatch es node)) ∧
      childComboSel.matches rowDeep = .ok false ∧
      childComboSel.matches rowDirect = .ok true ∧
      descComboSel.matches rowDeep = .ok true ∧
      descComboSel.matches rowOrphan = .ok false := by
  refine ⟨?_, rfl, rfl, rfl, rfl⟩
  intro es
  induction es with
  | nil => intro node _; rfl
  | cons e rest ih =>
    intro node hsup
    rw [List.all_cons, Bool.and_eq_true] at hsup
    obtain ⟨he, hrest⟩ := hsup
    rcases hc : e.comb with _ | _ | _ | _ | _
    · simp only [selectorMatchLoop, specSelectorMatch, hc]
      by_cases hm : e.matches node = true
      · rw [if_pos hm, hm, Bool.true_and]
        exact ih node hrest
      · rw [if_neg hm]
        rw [Bool.not_eq_true] at hm
        rw [hm, Bool.false_and]
    · simp only [selectorMatchLoop, specSelectorMatch, hc]
      rcases hp : node.parent with _ | p
      · rfl
      · show (if e.matches p = true then selectorMatchLoop rest p else Except.ok false) =
          Except.ok (e.matches p && specSelectorMatch rest p)
        by_cases hm : e.matches p = true
        · rw [if_pos hm, hm, Bool.true_and]
          exact ih p hrest
        · rw [if_neg hm]
          rw [Bool.not_eq_true] at hm
          rw [hm, Bool.false_and]
    · simp only [selectorMatchLoop, specSelectorMatch, hc,
        findAncestor_eq_find]
      rcases hf : (ancestors node).find? (fun a => e.matches a) with _ | p
      · rfl
      · exact ih p hrest
    · rw [hc] at he
      simp [combSupported] at he
    · rw [hc] at he
      simp [combSupported] at he

/-- A closed instance of the C4 algorithm characterization: the hypothesis
(all combinators supported) discharged on the reversed entries of
`section .row` at the deep `.row` node. -/
theorem c4_witness :
    ([SeqSel.simple (.cls "row") .none,
      SeqSel.simple (.typeSel "section") .descendant].all
        (fun e => combSupported e.comb) = true) ∧
      selectorMatchLoop
          [SeqSel.simple (.cls "row") .none,
           SeqSel.simple (.typeSel "section") .descendant] rowDeep =
        .ok (specSelectorMatch
          [SeqSel.simple (.cls "row") .none,
           SeqSel.simple (.typeSel "section") .descendant] rowDeep) :=
  ⟨by decide,
   c4_selector_match_algorithm.1
     [SeqSel.simple (.cls "row") .none,
      SeqSel.simple (.typeSel "section") .descendant] rowDeep (by decide)⟩

/-- C5: a selector whose parse fails becomes an `InvalidSelector` whose
`match` is false on every node and whose specificity is 0; the empty
selector becomes the `"Empty selector"` `InvalidSelector`; and in a sheet
with one malformed rule (`[unterminated`) the other well-formed rule is
processed normally: querying a node with class `ok` still returns `.ok`,
which matches. -/
theorem c5_invalid_selector_isolation :
    (∀ (text e : String),
        parse text = .error e →
          createSelector text = .simple (.invalid e) .none ∧
            (createSelector text).specificity = 0 ∧
            ∀ node : Node, (createSelector text).matches node = .ok false) ∧
      createSelector "" = .simple (.invalid "Empty selector") .none ∧
      (buildSelectorsMap (fromAstNodes sheetWithBadRule)).query nodeOk =
        [.simple (.cls "ok") .none] ∧
      (SelectorCore.simple (.cls "ok") .none).matches nodeOk = .ok true := by
  refine ⟨?_, rfl, rfl, rfl⟩
  intro text e he
  have h1 : createSelector text = .simple (.invalid e) .none := by
    unfold createSelector
    rw [he]
  rw [h1]
  exact ⟨rfl, rfl, fun node => rfl⟩

/-- A closed instance of C5: the concrete malformed selector
`[unterminated` fails to parse and becomes an inert zero-specificity
`InvalidSelector`. -/
theorem c5_witness :
    parse "[unterminated" =
        .error "Expected an attribute test or a closing bracket" ∧
      createSelector "[unterminated" =
        .simple (.invalid "Expected an attribute test or a closing bracket")
          .none ∧
      (createSelector "[unterminated").specificity = 0 ∧
      (createSelector "[unterminated").matches nodeOk = .ok false := by
  have h : parse "[unterminated" =
      .error "Expected an attribute test or a closing bracket" := rfl
  obtain ⟨h1, h2, h3⟩ := c5_invalid_selector_isolation.1 "[unterminated" _ h
  exact ⟨h, h1, h2, h3 nodeOk⟩

/-- C6: when `Selector.match` reaches a sequence whose combinator is outside
{none, child, descendant} (the sibling combinators), it raises the
`Unsupported combinator` error rather than returning a non-match. -/
theorem c6_unsupported_combinator (e : SeqSel) (rest : List SeqSel)
    (node : Node)
    (h : e.comb = Combinator.adjacent ∨ e.comb = Combinator.sibling) :
    selectorMatchLoop (e :: rest) node = .error (unsupportedCombMsg e.comb) := by
  rcases h with h | h
  · simp only [selectorMatchLoop, h]
  · simp only [selectorMatchLoop, h]

/-- A closed instance of C6: an adjacent-sibling entry at the front of the
chain makes matching throw. -/
theorem c6_witness :
    ((SeqSel.simple (.typeSel "a") Combinator.adjacent).comb =
        Combinator.adjacent ∨
      (SeqSel.simple (.typeSel "a") Combinator.adjacent).comb =
        Combinator.sibling) ∧
      selectorMatchLoop [SeqSel.simple (.typeSel "a") Combinator.adjacent]
          nodeNoCaps =
        .error (unsupportedCombMsg
          (SeqSel.simple (.typeSel "a") Combinator.adjacent).comb) :=
  ⟨Or.inl rfl,
   c6_unsupported_combinator (SeqSel.simple (.typeSel "a") Combinator.adjacent)
     [] nodeNoCaps (Or.inl rfl)⟩

/-- C7: for the four rules `#foo`, `.bar`, `button`, `*`, querying a node
with `id=foo, classes={bar}, type=button` returns exactly the four
selectors, each exactly once, whatever the order of the rules in the
source. -/
theorem c7_index_correctness (l : List RuleSet)
    (hl : l.Perm [ruleIdFoo, ruleClsBar, ruleTypeButton, ruleUnivAll]) :
    ((buildSelectorsMap l).query nodeFooBarButton).length = 4 ∧
      ∀ s ∈ [SelectorCore.simple (.id "foo") .none,
             SelectorCore.simple (.cls "bar") .none,
             SelectorCore.simple (.typeSel "button") .none,
             SelectorCore.simple .universal .none],
        ((buildSelectorsMap l).query nodeFooBarButton).count s = 1 := by
  have hmem := mem_allPerms_of_perm hl
  clear hl
  revert hmem
  revert l
  decide

/-- A closed instance of C7 at the identity rule order. -/
theorem c7_witness :
    ([ruleClsBar, ruleIdFoo, ruleUnivAll, ruleTypeButton].Perm
        [ruleIdFoo, ruleClsBar, ruleTypeButton, ruleUnivAll]) ∧
      ((buildSelectorsMap
            [ruleClsBar, ruleIdFoo, ruleUnivAll, ruleTypeButton]).query
          nodeFooBarButton).length = 4 :=
  ⟨by decide,
   (c7_index_correctness [ruleClsBar, ruleIdFoo, ruleUnivAll, ruleTypeButton]
     (by decide)).1⟩

/-- C8: a selector group parsing to exactly one simple selector is returned
unwrapped by `createSelector` (no sequence wrapper), and matching the bare
selector agrees with matching a one-element `SimpleSelectorSequence` with
the same combinator, on every node. -/
theorem c8_single_selector_unwrapped (text : String) (tok : SelTok)
    (h : parse text = .ok [tok]) :
    createSelector text =
        (SeqSel.simple (createSimpleSelector tok.kind) tok.comb).toCore ∧
      ∀ node : Node,
        (SelectorCore.simple (createSimpleSelector tok.kind) tok.comb).matches
            node =
          (SelectorCore.seq [createSimpleSelector tok.kind] tok.comb).matches
            node := by
  constructor
  · unfold createSelector
    rw [h]
    rfl
  · intro node
    show Except.ok ((createSimpleSelector tok.kind).matches node) =
      Except.ok ([createSimpleSelector tok.kind].all (fun s => s.matches node))
    rw [List.all_cons, List.all_nil, Bool.and_true]

/-- A closed instance of C8 at the selector text `.bar`. -/
theorem c8_witness :
    parse ".bar" = .ok [⟨.cls "bar", .none⟩] ∧
      createSelector ".bar" =
        (SeqSel.simple (createSimpleSelector (TokKind.cls "bar"))
            Combinator.none).toCore :=
  ⟨rfl,
   (c8_single_selector_unwrapped ".bar" ⟨.cls "bar", .none⟩ rfl).1⟩

/-- C9: building a `SelectorsMap` never files an `InvalidSelector`
(`InvalidSelector.lookupSort` is a no-op), so `query` never returns one. -/
theorem c9_no_invalid_in_query (rulesets : List RuleSet) (node : Node)
    (s : SelectorCore) (hs : s ∈ (buildSelectorsMap rulesets).query node) :
    isInvalidCore s = false := by
  simp only [SelectorsMap.query, SelectorsMap.queryDoc, List.mem_map,
    List.mem_insertionSort] at hs
  rcases hs with ⟨d, hd, rfl⟩
  exact noInvalid_build rulesets d (mem_gatherCandidates hd)

/-- A closed instance of C9: membership of the `.bar` selector in a
concrete query discharged, and the conclusion evaluated. -/
theorem c9_witness :
    (SelectorCore.simple (.cls "bar") .none ∈
        (buildSelectorsMap [ruleClsBar]).query nodeFooBarButton) ∧
      isInvalidCore (SelectorCore.simple (.cls "bar") .none) = false :=
  ⟨by decide,
   c9_no_invalid_in_query [ruleClsBar] nodeFooBarButton
     (SelectorCore.simple (.cls "bar") .none) (by decide)⟩

/-- C10: on a node whose `cssClasses` (resp. `cssPseudoClasses`) capability
is absent, `ClassSelector.match` (resp. `PseudoClassSelector.match`)
evaluates — totally, without any error — to a non-match. -/
theorem c10_missing_capabilities :
    (∀ (c : String) (node : Node),
        node.cssClasses = Option.none → (SimpleSel.cls c).matches node = false) ∧
      ∀ (p : String) (node : Node),
        node.cssPseudoClasses = Option.none →
          (SimpleSel.pseudo p).matches node = false := by
  constructor
  · intro c node h
    simp only [SimpleSel.matches, h]
  · intro p node h
    simp only [SimpleSel.matches, h]

/-- A closed instance of C10 on a node with neither capability. -/
theorem c10_witness :
    nodeNoCaps.cssClasses = Option.none ∧
      (SimpleSel.cls "x").matches nodeNoCaps = false ∧
      nodeNoCaps.cssPseudoClasses = Option.none ∧
      (SimpleSel.pseudo "hover").matches nodeNoCaps = false :=
  ⟨rfl, c10_missing_capabilities.1 "x" nodeNoCaps rfl, rfl,
   c10_missing_capabilities.2 "hover" nodeNoCaps rfl⟩

end CssSel
